import Mathlib

/-!
Verification of the group 0 discovery and lifecycle specification of
src/service/raft/raft_group0.hh.  The repository sources contain only the
interface declarations; the behavioural bodies (raft_group0.cc and the
discovery engine) are modelled from the specification text, as indicated
in each definition's doc comment.
-/

namespace Group0

/-- Modelled from the spec: a server identifier is an opaque, globally unique,
immutable value identifying a node (raft::server_id in the source interface). -/
abbrev ServerId := Nat

/-- Modelled from the spec: a group identifier is an opaque, globally unique,
immutable value assigned exactly once when a group is created
(raft::group_id in the source interface). -/
abbrev GroupId := Nat

/-- Modelled from the spec: a Discovery Peer is an opaque network address plus
a unique, stable identifier for a potential consensus-group member
(discovery_peer in the source interface). -/
structure discovery_peer where
  id : ServerId
  addr : Nat
deriving DecidableEq, Repr

/-- Modelled from the spec: a Peer List is a set of Discovery Peers,
deduplicated by identifier (discovery::peer_list in the source interface). -/
abbrev peer_list := List discovery_peer

/-- Identifiers mentioned in a peer list. -/
def peerIds (l : peer_list) : List ServerId := l.map (fun p => p.id)

/-- Whether a peer list already holds a peer with the given identifier. -/
def containsId (l : peer_list) (i : ServerId) : Bool := l.any (fun p => p.id == i)

/-- Insert one peer into a peer list, deduplicating by identifier. -/
def insertPeer (l : peer_list) (p : discovery_peer) : peer_list :=
  if containsId l p.id then l else l ++ [p]

/-- Modelled from the spec: merge every peer of the second list into the
first, deduplicating by identifier (the merge step of the Discovery Engine;
the engine body is not in the sources). -/
def mergePeers (l m : peer_list) : peer_list := m.foldl insertPeer l

/-- Modelled from the spec: the deterministic tie-break over the stabilized
peer set: a pure function selecting the peer with the least identifier (a
total order over peer identifiers); the Discovery Engine body implementing
it is not in the sources. -/
def leaderOf (me : discovery_peer) (peers : peer_list) : discovery_peer :=
  peers.foldl (fun best p => if p.id < best.id then p else best) me

/-- Modelled from the spec: the outcome of discovery (group0_info in the
source interface) - either this node is the leader and must create the
group, or it should join the group via the given leader peer. -/
inductive group0_info
  | create_group (leader : discovery_peer) (members : peer_list)
  | join_group (leader : discovery_peer)
deriving DecidableEq, Repr

/-- Modelled from the spec: the state of persistent_discovery (the wrapper of
the Discovery Engine persisting learned peers; its body is not in the
sources).  Fields: this node's stable address, the in-memory peer list used
by discovery rounds, the durable Discovery Peer Store contents, and whether
discovery already finished (used to answer peer-exchange requests with an
absent result). -/
structure persistent_discovery where
  my_addr : discovery_peer
  peers : peer_list
  store : peer_list
  finished : Bool
deriving DecidableEq, Repr

/-- Modelled from the spec: persistent_discovery::make loads previously
persisted peers from the Discovery Peer Store and unions them with the
provided seed list (the body is not in the sources; the store argument is
the loaded Discovery Peer Store contents). -/
def persistent_discovery.make (my_addr : discovery_peer) (seeds : peer_list)
    (store : peer_list) : persistent_discovery :=
  { my_addr := my_addr
    peers := mergePeers (mergePeers [my_addr] store) seeds
    store := store
    finished := false }

/-- Modelled from the spec: learning a batch of peers during discovery; every
newly learned peer is persisted to the Discovery Peer Store at the moment it
is merged into the usable in-memory peer list, hence before any subsequent
round uses it (the persisting run body is not in the sources). -/
def persistent_discovery.learn (pd : persistent_discovery) (newPeers : peer_list) :
    persistent_discovery :=
  { pd with
    store := mergePeers pd.store newPeers
    peers := mergePeers pd.peers newPeers }

/-- Sequence of learning events observed during a run of the discovery
algorithm, each event being one batch of peers learned from the network. -/
def runEvents (pd : persistent_discovery) (events : List peer_list) :
    persistent_discovery :=
  events.foldl persistent_discovery.learn pd

/-- Modelled from the spec: persistent_discovery::request handles one incoming
peer-exchange RPC (the body is not in the sources): when discovery already
finished it signals "not currently discovering" with an absent result rather
than an error; otherwise it merges and persists the sender's peers and
returns the current peer list snapshot. -/
def persistent_discovery.request (pd : persistent_discovery) (incoming : peer_list) :
    persistent_discovery × Option peer_list :=
  if pd.finished then (pd, none)
  else
    let pd' := pd.learn incoming
    (pd', some pd'.peers)

/-- Modelled from the spec: one round of the Discovery Engine (the body is not
in the sources): send the locally known list to every currently known peer
other than this node and merge every returned peer list into the local set;
the respond argument stands for the network's answers. -/
def discoveryRound (me : discovery_peer) (known : peer_list)
    (respond : discovery_peer → peer_list) : peer_list :=
  (known.filter (fun p => p.id != me.id)).foldl
    (fun acc p => mergePeers acc (respond p)) known

/-- Modelled from the spec: drive discovery rounds until the peer set
stabilizes (no new peers learned for a full round), then apply the tie-break
over the stabilized set; fuel bounds the number of rounds (termination is
caller-bounded), with none meaning still discovering. -/
def runDiscovery (me : discovery_peer) (respond : discovery_peer → peer_list) :
    Nat → peer_list → Option group0_info
  | 0, _ => none
  | Nat.succ fuel, known =>
      let known' := discoveryRound me known respond
      if peerIds known' = peerIds known then
        let ldr := leaderOf me known'
        if ldr.id = me.id then some (.create_group me known')
        else some (.join_group ldr)
      else runDiscovery me respond fuel known'

/-- Modelled from the spec: raft_group0::discover_group0 runs the discovery
algorithm starting from the persisted store extended with the seeds (the
body in raft_group0.cc is not in the sources). -/
def discover_group0 (fuel : Nat) (me : discovery_peer) (seeds : peer_list)
    (store : peer_list) (respond : discovery_peer → peer_list) : Option group0_info :=
  runDiscovery me respond fuel (persistent_discovery.make me seeds store).peers

/-- Modelled from the spec: the node-local Lifecycle State, matching the
source's tri-state variant over monostate, persistent_discovery and
raft::group_id. -/
inductive Lifecycle
  | uninitialized
  | discovering (pd : persistent_discovery)
  | member (gid : GroupId)
deriving DecidableEq, Repr

/-- Tag of a lifecycle state, used to record which states were entered. -/
inductive LifecycleTag
  | uninitialized
  | discovering
  | member
deriving DecidableEq, Repr

/-- Tag of a lifecycle state. -/
def tag : Lifecycle → LifecycleTag
  | .uninitialized => .uninitialized
  | .discovering _ => .discovering
  | .member _ => .member

/-- Modelled from the source's status_for_monitoring enum: disabled, normal
or aborted. -/
inductive MonitoringStatus
  | disabled
  | normal
  | aborted
deriving DecidableEq, Repr

/-- Modelled from the spec: the per-process state of the Group Lifecycle State
Machine: the current lifecycle state, the history of lifecycle states entered
during this process lifetime, whether setup_group0 was already invoked in
this process lifetime, whether the node has just bootstrapped, whether the
upgrade trigger was prepared and armed, and the monitoring status. -/
structure ProcState where
  lifecycle : Lifecycle
  visited : List LifecycleTag
  setup_called : Bool
  just_bootstrapped : Bool
  upgrade_prepared : Bool
  upgrade_listener_armed : Bool
  monitoring : MonitoringStatus
deriving DecidableEq, Repr

/-- Enter a lifecycle state, recording it in the visited history. -/
def enter (ps : ProcState) (st : Lifecycle) : ProcState :=
  { ps with lifecycle := st, visited := ps.visited ++ [tag st] }

/-- Modelled from the spec: the in-memory process state right after a process
restart - no group, no discovery in progress, setup not yet invoked. -/
def restartProc : ProcState :=
  { lifecycle := .uninitialized
    visited := [.uninitialized]
    setup_called := false
    just_bootstrapped := false
    upgrade_prepared := false
    upgrade_listener_armed := false
    monitoring := .normal }

/-- Modelled from the spec: the durable on-disk state shared across restarts -
the once-written Group Identifier record and the Discovery Peer Store. -/
structure Disk where
  group0_id : Option GroupId
  peer_store : peer_list
deriving DecidableEq, Repr

/-- Replace Info from the source interface: address plus raft id of the node
being replaced. -/
structure replace_info where
  ip_addr : Nat
  raft_id : ServerId
deriving DecidableEq, Repr

/-- Modelled from the spec: the external facts consumed during setup - whether
the local RAFT feature is enabled, whether this is an upgrade of a
pre-consensus cluster, this node's stable address, the seed contact peers,
the group identifier that discovery or group creation yields (the consensus
engine creating or joining the group is an external collaborator), and the
optional replace information. -/
structure BootEnv where
  raft_enabled : Bool
  upgrading : Bool
  my_addr : discovery_peer
  seeds : peer_list
  gid : GroupId
  replace : Option replace_info
deriving DecidableEq, Repr

/-- Error raised when setup_group0 is invoked twice in one process lifetime
(the source documents that it cannot be called twice). -/
inductive SetupError
  | called_twice
deriving DecidableEq, Repr

/-- Modelled from the source interface: joined_group0 holds when the lifecycle
variant carries a group id. -/
def joined_group0 (ps : ProcState) : Bool :=
  match ps.lifecycle with
  | .member _ => true
  | _ => false

/-- Modelled from the spec: raft_group0::start_server_for_group0 starts the
existing server for an already-joined group (the body is not in the
sources); it moves the lifecycle directly to Member. -/
def start_server_for_group0 (ps : ProcState) (gid : GroupId) : ProcState :=
  enter ps (.member gid)

/-- Modelled from the spec: raft_group0::join_group0 (the body is not in the
sources) runs discovery, creates or joins the group yielding the group id
of the environment, and persists the group 0 ID on disk at the end so
subsequent restarts detect that group 0 has already been joined. -/
def join_group0 (ps : ProcState) (disk : Disk) (env : BootEnv) (as_voter : Bool) :
    ProcState × Disk :=
  let ps := enter ps
    (.discovering (persistent_discovery.make env.my_addr env.seeds disk.peer_store))
  let ps := enter ps (.member env.gid)
  (ps, { disk with group0_id := some env.gid })

/-- Modelled from the spec: raft_group0::setup_group0 (the body is not in the
sources): rejects a second invocation within one process lifetime; when the
RAFT feature is disabled it is a no-op with monitoring disabled; when a
Group Identifier is already persisted it starts the existing server
directly; when upgrading it prepares the upgrade trigger; otherwise it
joins group 0 through discovery. -/
def setup_group0 (ps : ProcState) (disk : Disk) (env : BootEnv) :
    Except SetupError (ProcState × Disk) :=
  if ps.setup_called then .error .called_twice
  else
    let ps1 := { ps with setup_called := true }
    if env.raft_enabled = false then
      .ok ({ ps1 with monitoring := .disabled }, disk)
    else
      let ps2 := { ps1 with monitoring := .normal }
      match disk.group0_id with
      | some gid => .ok (start_server_for_group0 ps2 gid, disk)
      | none =>
          if env.upgrading then .ok ({ ps2 with upgrade_prepared := true }, disk)
          else
            let r := join_group0 ps2 disk env false
            .ok ({ r.1 with just_bootstrapped := true }, r.2)

/-- Member of the group 0 configuration: a server id with its voting status. -/
structure config_member where
  id : ServerId
  is_voter : Bool
deriving DecidableEq, Repr

/-- Current group 0 configuration, as a list of members. -/
abbrev raft_config := List config_member

/-- Modelled from the source interface: is_member checks whether the given
server belongs to the configuration, restricted to voting members when
include_voters_only is set. -/
def is_member (cfg : raft_config) (i : ServerId) (include_voters_only : Bool) : Bool :=
  cfg.any (fun mem => mem.id == i && (!include_voters_only || mem.is_voter))

/-- Modelled from the spec: promote the given server to voter in the
configuration (the become_voter body is not in the sources). -/
def become_voter (my_id : ServerId) (cfg : raft_config) : raft_config :=
  cfg.map (fun mem => if mem.id = my_id then { mem with is_voter := true } else mem)

/-- Modelled from the spec: raft_group0::finish_setup_after_join (the body is
not in the sources): for a freshly bootstrapped node it causes the group 0
server to become a voter; for an upgrading node it arms the RAFT feature
listener; otherwise it leaves everything unchanged. -/
def finish_setup_after_join (ps : ProcState) (my_id : ServerId) (cfg : raft_config) :
    ProcState × raft_config :=
  if ps.just_bootstrapped then (ps, become_voter my_id cfg)
  else if ps.upgrade_prepared then ({ ps with upgrade_listener_armed := true }, cfg)
  else (ps, cfg)

/-- Action performed against the consensus engine by wait_for_raft, in order:
wait for an in-progress upgrade to finish, then a linearizable read
barrier. -/
inductive RaftAction
  | wait_upgrade_finished
  | read_barrier
deriving DecidableEq, Repr

/-- Facts consulted by wait_for_raft: whether Raft is enabled and whether the
cluster is in RECOVERY mode. -/
structure RaftCtx where
  raft_enabled : Bool
  recovery_mode : Bool
deriving DecidableEq, Repr

/-- Modelled from the spec: raft_group0::wait_for_raft (the body is not in the
sources): returns false immediately when Raft is disabled or in RECOVERY
mode; otherwise waits for the upgrade procedure to finish, performs a Raft
read barrier, and returns true; the second component lists the actions
performed against the consensus engine. -/
def wait_for_raft (ctx : RaftCtx) : Bool × List RaftAction :=
  if !ctx.raft_enabled || ctx.recovery_mode then (false, [])
  else (true, [.wait_upgrade_finished, .read_barrier])

/-- Result reported by one attempt to commit a configuration change: success,
definitive rejection, or raft::commit_status_unknown. -/
inductive CommitResult
  | success
  | rejected
  | unknown
deriving DecidableEq, Repr

/-- One attempt to commit a configuration change: the reported commit status
and whether the change actually reached the replicated configuration (for
an unknown outcome the change may or may not have committed). -/
structure Attempt where
  reported : CommitResult
  applied : Bool
deriving DecidableEq, Repr

/-- Modelled from the spec: the retry loop of a configuration mutation - the
same logical mutation is retried while the reported outcome is unknown, and
the loop stops at the first success or definitive rejection; none means the
trace ended with the outcome still ambiguous. -/
def runAttempts (m : raft_config → raft_config) :
    List Attempt → raft_config → raft_config × Option CommitResult
  | [], cfg => (cfg, none)
  | a :: rest, cfg =>
      let cfg' := if a.applied then m cfg else cfg
      match a.reported with
      | .unknown => runAttempts m rest cfg'
      | r => (cfg', some r)

/-- Remove the given server from the configuration; removing an absent server
leaves the configuration unchanged. -/
def removeFromConfig (i : ServerId) (cfg : raft_config) : raft_config :=
  cfg.filter (fun mem => mem.id != i)

/-- Demote the given server to non-voter in the configuration. -/
def makeNonvoter (i : ServerId) (cfg : raft_config) : raft_config :=
  cfg.map (fun mem => if mem.id = i then { mem with is_voter := false } else mem)

/-- Modelled from the spec: raft_group0::remove_from_raft_config removes the
node from the raft configuration, retrying raft::commit_status_unknown (the
body is not in the sources); the attempts list records the observed commit
outcomes. -/
def remove_from_raft_config (i : ServerId) (attempts : List Attempt)
    (cfg : raft_config) : raft_config × Option CommitResult :=
  runAttempts (removeFromConfig i) attempts cfg

/-- Modelled from the spec: raft_group0::make_raft_config_nonvoter makes the
given server a non-voter in the raft configuration, retrying
raft::commit_status_unknown (the body is not in the sources). -/
def make_raft_config_nonvoter (i : ServerId) (attempts : List Attempt)
    (cfg : raft_config) : raft_config × Option CommitResult :=
  runAttempts (makeNonvoter i) attempts cfg

theorem containsId_iff (l : peer_list) (i : ServerId) :
    containsId l i = true ↔ i ∈ peerIds l := by
  unfold containsId peerIds
  rw [List.any_eq_true]
  constructor
  · rintro ⟨p, hp, hb⟩
    exact List.mem_map.mpr ⟨p, hp, beq_iff_eq.mp hb⟩
  · intro h
    rcases List.mem_map.mp h with ⟨p, hp, hpi⟩
    exact ⟨p, hp, beq_iff_eq.mpr hpi⟩

theorem mem_peerIds_insertPeer_left (l : peer_list) (p : discovery_peer)
    (i : ServerId) (h : i ∈ peerIds l) : i ∈ peerIds (insertPeer l p) := by
  unfold insertPeer
  split
  · exact h
  · unfold peerIds at *
    simp only [List.map_append, List.mem_append]
    exact Or.inl h

theorem mem_peerIds_insertPeer_self (l : peer_list) (p : discovery_peer) :
    p.id ∈ peerIds (insertPeer l p) := by
  unfold insertPeer
  split
  · exact (containsId_iff l p.id).mp (by assumption)
  · unfold peerIds
    simp

theorem mem_peerIds_insertPeer_elim (l : peer_list) (p : discovery_peer)
    (i : ServerId) (h : i ∈ peerIds (insertPeer l p)) :
    i ∈ peerIds l ∨ i = p.id := by
  unfold insertPeer at h
  split at h
  · exact Or.inl h
  · unfold peerIds at h ⊢
    simp only [List.map_append, List.mem_append] at h
    rcases h with h | h
    · exact Or.inl h
    · simp only [List.map_cons, List.map_nil, List.mem_singleton] at h
      exact Or.inr h

theorem mem_peerIds_mergePeers_left (m l : peer_list) (i : ServerId)
    (h : i ∈ peerIds l) : i ∈ peerIds (mergePeers l m) := by
  induction m generalizing l with
  | nil => exact h
  | cons p m ih =>
      exact ih (insertPeer l p) (mem_peerIds_insertPeer_left l p i h)

theorem mem_peerIds_mergePeers_right (m l : peer_list) (p : discovery_peer)
    (h : p ∈ m) : p.id ∈ peerIds (mergePeers l m) := by
  induction m generalizing l with
  | nil => cases h
  | cons q m ih =>
      cases h with
      | head =>
          exact mem_peerIds_mergePeers_left m (insertPeer l p) p.id
            (mem_peerIds_insertPeer_self l p)
      | tail _ h' => exact ih (insertPeer l q) h'

theorem mem_peerIds_mergePeers_right_id (m l : peer_list) (i : ServerId)
    (h : i ∈ peerIds m) : i ∈ peerIds (mergePeers l m) := by
  rcases List.mem_map.mp h with ⟨p, hp, rfl⟩
  exact mem_peerIds_mergePeers_right m l p hp

theorem mem_peerIds_mergePeers_elim (m l : peer_list) (i : ServerId)
    (h : i ∈ peerIds (mergePeers l m)) : i ∈ peerIds l ∨ i ∈ peerIds m := by
  induction m generalizing l with
  | nil => exact Or.inl h
  | cons p m ih =>
      rcases ih (insertPeer l p) h with h' | h'
      · rcases mem_peerIds_insertPeer_elim l p i h' with h'' | h''
        · exact Or.inl h''
        · refine Or.inr ?_
          unfold peerIds
          simp [h'']
      · refine Or.inr ?_
        unfold peerIds at h' ⊢
        simp only [List.map_cons, List.mem_cons]
        exact Or.inr h'

theorem leaderOf_cons (me p : discovery_peer) (peers : peer_list) :
    leaderOf me (p :: peers) = leaderOf (if p.id < me.id then p else me) peers := rfl

theorem leaderOf_mem (me : discovery_peer) (peers : peer_list) :
    leaderOf me peers ∈ me :: peers := by
  induction peers generalizing me with
  | nil => exact List.mem_singleton.mpr rfl
  | cons p peers ih =>
      rw [leaderOf_cons]
      rcases List.mem_cons.mp (ih (if p.id < me.id then p else me)) with h | h
      · rw [h]
        split
        · exact List.mem_cons_of_mem _ (List.mem_cons_self _ _)
        · exact List.mem_cons_self _ _
      · exact List.mem_cons_of_mem _ (List.mem_cons_of_mem _ h)

theorem leaderOf_le (me : discovery_peer) (peers : peer_list) :
    ∀ q ∈ me :: peers, (leaderOf me peers).id ≤ q.id := by
  induction peers generalizing me with
  | nil =>
      intro q hq
      rcases List.mem_cons.mp hq with h | h
      · subst h
        exact Nat.le_refl _
      · cases h
  | cons p peers ih =>
      intro q hq
      rw [leaderOf_cons]
      have step : (if p.id < me.id then p else me).id ≤ me.id ∧
          (if p.id < me.id then p else me).id ≤ p.id := by
        split
        · exact ⟨Nat.le_of_lt (by assumption), Nat.le_refl _⟩
        · exact ⟨Nat.le_refl _, Nat.le_of_not_lt (by assumption)⟩
      have hmin := ih (if p.id < me.id then p else me)
      rcases List.mem_cons.mp hq with h | h
      · subst h
        exact Nat.le_trans (hmin _ (List.mem_cons_self _ _)) step.1
      · rcases List.mem_cons.mp h with h' | h'
        · subst h'
          exact Nat.le_trans (hmin _ (List.mem_cons_self _ _)) step.2
        · exact hmin q (List.mem_cons_of_mem _ h')

theorem leaderOf_id_mem (me : discovery_peer) (peers : peer_list) :
    (leaderOf me peers).id ∈ peerIds (me :: peers) := by
  unfold peerIds
  exact List.mem_map_of_mem _ (leaderOf_mem me peers)

theorem leaderOf_le_ids (me : discovery_peer) (peers : peer_list) :
    ∀ i ∈ peerIds (me :: peers), (leaderOf me peers).id ≤ i := by
  intro i hi
  rcases List.mem_map.mp hi with ⟨q, hq, rfl⟩
  exact leaderOf_le me peers q hq

theorem runEvents_store_mono (events : List peer_list) (pd : persistent_discovery)
    (i : ServerId) (h : i ∈ peerIds pd.store) :
    i ∈ peerIds (runEvents pd events).store := by
  induction events generalizing pd with
  | nil => exact h
  | cons e rest ih =>
      exact ih (pd.learn e) (mem_peerIds_mergePeers_left e pd.store i h)

theorem learned_mem_store (events : List peer_list) (pd : persistent_discovery)
    (P : discovery_peer) (h : P ∈ events.flatten) :
    P.id ∈ peerIds (runEvents pd events).store := by
  induction events generalizing pd with
  | nil => cases h
  | cons e rest ih =>
      rw [List.flatten_cons, List.mem_append] at h
      rcases h with h | h
      · exact runEvents_store_mono rest (pd.learn e) P.id
          (mem_peerIds_mergePeers_right e pd.store P h)
      · exact ih (pd.learn e) h

theorem store_subset_make_peers (my_addr : discovery_peer) (seeds store : peer_list)
    (i : ServerId) (h : i ∈ peerIds store) :
    i ∈ peerIds (persistent_discovery.make my_addr seeds store).peers := by
  unfold persistent_discovery.make
  exact mem_peerIds_mergePeers_left seeds _ i
    (mem_peerIds_mergePeers_right_id store [my_addr] i h)

theorem runEvents_peers_persisted (events : List peer_list) (pd : persistent_discovery)
    (i : ServerId) (h : i ∈ peerIds (runEvents pd events).peers) :
    i ∈ peerIds pd.peers ∨ i ∈ peerIds (runEvents pd events).store := by
  induction events generalizing pd with
  | nil => exact Or.inl h
  | cons e rest ih =>
      rcases ih (pd.learn e) h with h' | h'
      · rcases mem_peerIds_mergePeers_elim e pd.peers i h' with h'' | h''
        · exact Or.inl h''
        · exact Or.inr (runEvents_store_mono rest (pd.learn e) i
            (mem_peerIds_mergePeers_right_id e pd.store i h''))
      · exact Or.inr h'

theorem runAttempts_retry (m : raft_config → raft_config) (hm : ∀ c, m (m c) = m c)
    (unknowns : List Attempt) (cfg : raft_config)
    (hu : ∀ a ∈ unknowns, a.reported = CommitResult.unknown) :
    runAttempts m (unknowns ++ [⟨CommitResult.success, true⟩]) cfg
      = (m cfg, some CommitResult.success) := by
  induction unknowns generalizing cfg with
  | nil => rfl
  | cons a rest ih =>
      have ha : a.reported = CommitResult.unknown := hu a (List.mem_cons_self _ _)
      have hrest : ∀ b ∈ rest, b.reported = CommitResult.unknown := by
        intro b hb
        exact hu b (List.mem_cons_of_mem _ hb)
      simp only [List.cons_append, runAttempts, ha, List.append_eq]
      rw [ih (if a.applied then m cfg else cfg) hrest]
      by_cases hap : a.applied = true
      · rw [if_pos hap, hm]
      · rw [if_neg hap]

theorem removeFromConfig_idem (i : ServerId) (cfg : raft_config) :
    removeFromConfig i (removeFromConfig i cfg) = removeFromConfig i cfg := by
  unfold removeFromConfig
  induction cfg with
  | nil => rfl
  | cons mem rest ih =>
      by_cases h : (mem.id != i) = true
      · simp only [List.filter_cons, h, if_pos, ih]
      · simp only [List.filter_cons, h]
        simpa using ih

theorem makeNonvoter_pointwise (i : ServerId) (mem : config_member) :
    (if (if mem.id = i then { mem with is_voter := false } else mem).id = i
        then { (if mem.id = i then { mem with is_voter := false } else mem) with
               is_voter := false }
        else (if mem.id = i then { mem with is_voter := false } else mem))
      = if mem.id = i then { mem with is_voter := false } else mem := by
  by_cases h : mem.id = i <;> simp [h]

theorem makeNonvoter_idem (i : ServerId) (cfg : raft_config) :
    makeNonvoter i (makeNonvoter i cfg) = makeNonvoter i cfg := by
  unfold makeNonvoter
  induction cfg with
  | nil => rfl
  | cons mem rest ih =>
      simp only [List.map_cons, List.map_map] at ih ⊢
      rw [makeNonvoter_pointwise]
      exact congrArg _ ih

theorem removeFromConfig_nodup (i : ServerId) (cfg : raft_config)
    (h : (cfg.map (fun mem => mem.id)).Nodup) :
    ((removeFromConfig i cfg).map (fun mem => mem.id)).Nodup := by
  unfold removeFromConfig
  exact h.sublist ((List.filter_sublist cfg).map (fun mem => mem.id))

theorem makeNonvoter_ids (i : ServerId) (cfg : raft_config) :
    (makeNonvoter i cfg).map (fun mem => mem.id) = cfg.map (fun mem => mem.id) := by
  unfold makeNonvoter
  induction cfg with
  | nil => rfl
  | cons mem rest ih =>
      simp only [List.map_cons, ih]
      by_cases h : mem.id = i <;> simp [h]

theorem setup_ok_called (ps : ProcState) (disk : Disk) (env : BootEnv)
    (ps' : ProcState) (disk' : Disk)
    (h : setup_group0 ps disk env = .ok (ps', disk')) : ps'.setup_called = true := by
  unfold setup_group0 at h
  split at h
  · exact absurd h (by simp)
  · split at h
    · simp only [Except.ok.injEq, Prod.mk.injEq] at h
      rw [← h.1]
    · split at h
      · simp only [Except.ok.injEq, Prod.mk.injEq] at h
        rw [← h.1]
        rfl
      · split at h
        · simp only [Except.ok.injEq, Prod.mk.injEq] at h
          rw [← h.1]
        · simp only [Except.ok.injEq, Prod.mk.injEq] at h
          rw [← h.1]
          rfl

theorem setup_restart_member (disk : Disk) (env : BootEnv) (gid : GroupId)
    (hen : env.raft_enabled = true) (hid : disk.group0_id = some gid) :
    setup_group0 restartProc disk env =
      .ok (start_server_for_group0
        { restartProc with setup_called := true, monitoring := .normal } gid, disk) := by
  unfold setup_group0
  rw [hid]
  simp [restartProc, hen]

/-- C1: the discovery leader tie-break is a pure function of the stabilized
peer set: any two nodes computing the tie-break over peer lists carrying the
same set of peer identifiers obtain the same leader identity without further
communication, the selected leader belongs to the peer set, and its
identifier is the unique minimum of the set, so exactly one leader is
selected. -/
theorem c1_tiebreak_deterministic (me1 me2 : discovery_peer) (l1 l2 : peer_list)
    (hset : ∀ i, i ∈ peerIds (me1 :: l1) ↔ i ∈ peerIds (me2 :: l2)) :
    (leaderOf me1 l1).id = (leaderOf me2 l2).id
    ∧ (leaderOf me1 l1).id ∈ peerIds (me1 :: l1)
    ∧ (∀ i ∈ peerIds (me1 :: l1), (leaderOf me1 l1).id ≤ i)
    ∧ ∀ q ∈ me1 :: l1, (∀ r ∈ me1 :: l1, q.id ≤ r.id) → q.id = (leaderOf me1 l1).id := by
  refine ⟨?_, leaderOf_id_mem me1 l1, leaderOf_le_ids me1 l1, ?_⟩
  · apply Nat.le_antisymm
    · exact leaderOf_le_ids me1 l1 _ ((hset _).mpr (leaderOf_id_mem me2 l2))
    · exact leaderOf_le_ids me2 l2 _ ((hset _).mp (leaderOf_id_mem me1 l1))
  · intro q hq hqmin
    apply Nat.le_antisymm
    · exact hqmin _ (leaderOf_mem me1 l1)
    · exact leaderOf_le_ids me1 l1 _ (List.mem_map_of_mem _ hq)

theorem c1_witness :
    (∀ i, i ∈ peerIds [⟨1, 10⟩, ⟨2, 20⟩] ↔ i ∈ peerIds [⟨2, 20⟩, ⟨1, 10⟩])
    ∧ (leaderOf ⟨1, 10⟩ [⟨2, 20⟩]).id = (leaderOf ⟨2, 20⟩ [⟨1, 10⟩]).id := by
  have hset : ∀ i, i ∈ peerIds [⟨1, 10⟩, ⟨2, 20⟩] ↔ i ∈ peerIds [⟨2, 20⟩, ⟨1, 10⟩] := by
    intro i
    simp [peerIds, or_comm]
  exact ⟨hset, (c1_tiebreak_deterministic ⟨1, 10⟩ ⟨2, 20⟩ [⟨2, 20⟩] [⟨1, 10⟩] hset).1⟩

/-- C2: during persistent discovery every newly learned peer is persisted to
the Discovery Peer Store before it is used in a subsequent round - every
identifier in the usable in-memory list is either already present initially
or persisted in the store - and every peer P learned before a crash is
contained, after a restart reconstructing state via make(identity, seeds)
from the store alone (no network), in the resulting peer list. -/
theorem c2_crash_safe_learning (my_addr : discovery_peer) (seeds store0 : peer_list)
    (events : List peer_list) (P : discovery_peer) (hP : P ∈ events.flatten) :
    P.id ∈ peerIds (runEvents (persistent_discovery.make my_addr seeds store0) events).store
    ∧ P.id ∈ peerIds (persistent_discovery.make my_addr seeds
        (runEvents (persistent_discovery.make my_addr seeds store0) events).store).peers
    ∧ ∀ i ∈ peerIds (runEvents (persistent_discovery.make my_addr seeds store0) events).peers,
        i ∈ peerIds (persistent_discovery.make my_addr seeds store0).peers
        ∨ i ∈ peerIds (runEvents (persistent_discovery.make my_addr seeds store0) events).store := by
  refine ⟨learned_mem_store events _ P hP, ?_, ?_⟩
  · exact store_subset_make_peers my_addr seeds _ P.id (learned_mem_store events _ P hP)
  · intro i hi
    exact runEvents_peers_persisted events _ i hi

theorem c2_witness :
    (⟨2, 20⟩ : discovery_peer) ∈ ([[⟨2, 20⟩]] : List peer_list).flatten
    ∧ (⟨2, 20⟩ : discovery_peer).id ∈ peerIds (persistent_discovery.make ⟨1, 10⟩ []
        (runEvents (persistent_discovery.make ⟨1, 10⟩ [] []) [[⟨2, 20⟩]]).store).peers :=
  ⟨by decide, (c2_crash_safe_learning ⟨1, 10⟩ [] [] [[⟨2, 20⟩]] ⟨2, 20⟩ (by decide)).2.1⟩

/-- C4: wait_for_raft returns false immediately, performing no action against
the consensus engine, whenever Raft is disabled or the cluster is in
RECOVERY mode; in every other case it waits for the in-progress upgrade to
finish, performs the linearizable read barrier, and returns true. -/
theorem c4_wait_for_raft (e r : Bool) :
    wait_for_raft ⟨e, r⟩ =
      if e && !r then (true, [RaftAction.wait_upgrade_finished, RaftAction.read_barrier])
      else (false, []) := by
  cases e <;> cases r <;> rfl

theorem c4_witness :
    wait_for_raft ⟨true, false⟩
      = (true, [RaftAction.wait_upgrade_finished, RaftAction.read_barrier]) := by
  have h := c4_wait_for_raft true false
  simpa using h

/-- C8: when the discovery algorithm is started with an empty seed peer list
(and an empty persisted store on a fresh node), the peer set stabilizes
immediately, the tie-break yields this node itself as leader, and the node
becomes the sole founding member of a singleton group, whatever the network
would answer and however much fuel remains. -/
theorem c8_empty_seeds_self_leader (me : discovery_peer)
    (respond : discovery_peer → peer_list) (fuel : Nat) :
    discover_group0 (fuel + 1) me [] [] respond
      = some (group0_info.create_group me [me]) := by
  have hpeers : (persistent_discovery.make me [] []).peers = [me] := rfl
  have hround : discoveryRound me [me] respond = [me] := by
    unfold discoveryRound
    simp
  unfold discover_group0
  rw [hpeers]
  unfold runDiscovery
  rw [hround]
  simp [leaderOf]

theorem c8_witness :
    discover_group0 1 ⟨1, 10⟩ [] [] (fun _ => [])
      = some (group0_info.create_group ⟨1, 10⟩ [⟨1, 10⟩]) :=
  c8_empty_seeds_self_leader ⟨1, 10⟩ (fun _ => []) 0

/-- C9: an incoming peer-exchange request received when discovery is not
active returns an absent result (the state untouched) rather than an error;
when discovery is active the sender's peers are merged into the in-memory
list, persisted to the store, and the current peer list snapshot is
returned. -/
theorem c9_request_absent_or_merge (pd : persistent_discovery) (incoming : peer_list) :
    (pd.finished = true → pd.request incoming = (pd, none))
    ∧ (pd.finished = false →
        (pd.request incoming).2 = some (pd.learn incoming).peers
        ∧ ∀ P ∈ incoming, P.id ∈ peerIds (pd.learn incoming).peers
            ∧ P.id ∈ peerIds (pd.learn incoming).store) := by
  constructor
  · intro h
    unfold persistent_discovery.request
    rw [h]
    rfl
  · intro h
    constructor
    · unfold persistent_discovery.request
      rw [h]
      rfl
    · intro P hP
      exact ⟨mem_peerIds_mergePeers_right incoming pd.peers P hP,
        mem_peerIds_mergePeers_right incoming pd.store P hP⟩

theorem c9_witness :
    persistent_discovery.request ⟨⟨1, 10⟩, [⟨1, 10⟩], [], true⟩ [⟨2, 20⟩]
      = (⟨⟨1, 10⟩, [⟨1, 10⟩], [], true⟩, none) :=
  (c9_request_absent_or_merge ⟨⟨1, 10⟩, [⟨1, 10⟩], [], true⟩ [⟨2, 20⟩]).1 rfl

/-- C3: a configuration mutation (remove member, demote to non-voter) that
reports "outcome unknown" any number of times - whether or not each ambiguous
attempt actually reached the configuration - and then commits, retries the
same logical mutation until success and leaves the final configuration
reflecting the mutation exactly once, with no duplicate entries. -/
theorem c3_retry_exactly_once (i : ServerId) (unknowns : List Attempt) (cfg : raft_config)
    (hu : ∀ a ∈ unknowns, a.reported = CommitResult.unknown)
    (hnodup : (cfg.map (fun mem => mem.id)).Nodup) :
    remove_from_raft_config i (unknowns ++ [⟨CommitResult.success, true⟩]) cfg
        = (removeFromConfig i cfg, some CommitResult.success)
    ∧ make_raft_config_nonvoter i (unknowns ++ [⟨CommitResult.success, true⟩]) cfg
        = (makeNonvoter i cfg, some CommitResult.success)
    ∧ ((removeFromConfig i cfg).map (fun mem => mem.id)).Nodup
    ∧ ((makeNonvoter i cfg).map (fun mem => mem.id)).Nodup := by
  refine ⟨?_, ?_, removeFromConfig_nodup i cfg hnodup, ?_⟩
  · exact runAttempts_retry _ (removeFromConfig_idem i) unknowns cfg hu
  · exact runAttempts_retry _ (makeNonvoter_idem i) unknowns cfg hu
  · rw [makeNonvoter_ids]
    exact hnodup

theorem c3_witness :
    remove_from_raft_config 2
        ([⟨CommitResult.unknown, true⟩, ⟨CommitResult.unknown, false⟩]
          ++ [⟨CommitResult.success, true⟩]) [⟨1, true⟩, ⟨2, true⟩]
      = (removeFromConfig 2 [⟨1, true⟩, ⟨2, true⟩], some CommitResult.success) :=
  (c3_retry_exactly_once 2 [⟨CommitResult.unknown, true⟩, ⟨CommitResult.unknown, false⟩]
    [⟨1, true⟩, ⟨2, true⟩] (by decide) (by decide)).1

/-- C5: a restart of a node whose Group Identifier is already persisted on
disk never enters the Discovering lifecycle state: setup_group0 skips
discovery entirely, starts the existing consensus server directly, leaves
the disk untouched, and reaches the Member state. -/
theorem c5_restart_skips_discovery (disk : Disk) (env : BootEnv) (gid : GroupId)
    (hen : env.raft_enabled = true) (hid : disk.group0_id = some gid) :
    ∃ ps', setup_group0 restartProc disk env = .ok (ps', disk)
      ∧ ps'.lifecycle = .member gid
      ∧ LifecycleTag.discovering ∉ ps'.visited
      ∧ joined_group0 ps' = true := by
  refine ⟨_, setup_restart_member disk env gid hen hid, rfl, ?_, rfl⟩
  simp [start_server_for_group0, enter, restartProc, tag]

theorem c5_witness :
    ∃ ps', setup_group0 restartProc ⟨some 7, []⟩ ⟨true, false, ⟨1, 10⟩, [], 7, none⟩
        = .ok (ps', ⟨some 7, []⟩)
      ∧ ps'.lifecycle = .member 7
      ∧ LifecycleTag.discovering ∉ ps'.visited
      ∧ joined_group0 ps' = true :=
  c5_restart_skips_discovery ⟨some 7, []⟩ ⟨true, false, ⟨1, 10⟩, [], 7, none⟩ 7 rfl rfl

/-- C6: after any successful setup_group0, invoking it a second time within
the same process lifetime is rejected with no effect (so discovery is never
re-run and the group is never re-created), while across process restarts the
operation is idempotent: a restarted process finds the persisted group id,
reaches Member again with the disk unchanged and without discovery. -/
theorem c6_setup_not_twice (ps : ProcState) (disk : Disk) (env : BootEnv)
    (ps' : ProcState) (disk' : Disk) (env2 env3 : BootEnv)
    (h : setup_group0 ps disk env = .ok (ps', disk')) :
    setup_group0 ps' disk' env2 = .error .called_twice
    ∧ ∀ gid, disk'.group0_id = some gid → env3.raft_enabled = true →
        ∃ ps'', setup_group0 restartProc disk' env3 = .ok (ps'', disk')
          ∧ ps''.lifecycle = .member gid
          ∧ LifecycleTag.discovering ∉ ps''.visited := by
  constructor
  · unfold setup_group0
    simp [setup_ok_called ps disk env ps' disk' h]
  · intro gid hg he
    refine ⟨_, setup_restart_member disk' env3 gid he hg, rfl, ?_⟩
    simp [start_server_for_group0, enter, restartProc, tag]

theorem c6_witness :
    ∃ ps' disk',
      setup_group0 restartProc ⟨some 7, []⟩ ⟨true, false, ⟨1, 10⟩, [], 7, none⟩
        = .ok (ps', disk')
      ∧ setup_group0 ps' disk' ⟨true, false, ⟨1, 10⟩, [], 7, none⟩
        = .error .called_twice := by
  refine ⟨_, _, rfl, ?_⟩
  exact (c6_setup_not_twice restartProc ⟨some 7, []⟩ ⟨true, false, ⟨1, 10⟩, [], 7, none⟩
    _ _ ⟨true, false, ⟨1, 10⟩, [], 7, none⟩ ⟨true, false, ⟨1, 10⟩, [], 7, none⟩ rfl).1

theorem become_voter_noop (my_id : ServerId) :
    ∀ cfg : raft_config, (∀ mem ∈ cfg, mem.id = my_id → mem.is_voter = true) →
      become_voter my_id cfg = cfg := by
  intro cfg
  induction cfg with
  | nil => intro _; rfl
  | cons mem rest ih =>
      intro h
      unfold become_voter at ih ⊢
      rw [List.map_cons]
      congr 1
      · by_cases hid : mem.id = my_id
        · rw [if_pos hid]
          have hv := h mem (List.mem_cons_self _ _) hid
          cases mem with
          | mk mid mv =>
              simp only at hv
              simp [hv]
        · rw [if_neg hid]
      · exact ih (fun m hm hidm => h m (List.mem_cons_of_mem _ hm) hidm)

/-- C7: finish_setup_after_join on a freshly bootstrapped node that is
currently a non-voter member promotes it to voter; when the node is already
a voter the call leaves the configuration unchanged (a no-op, not a fault,
since the promotion is idempotent). -/
theorem c7_voter_promotion (ps : ProcState) (my_id : ServerId) (cfg : raft_config)
    (hb : ps.just_bootstrapped = true) :
    (is_member cfg my_id false = true →
        is_member (finish_setup_after_join ps my_id cfg).2 my_id true = true)
    ∧ ((∀ mem ∈ cfg, mem.id = my_id → mem.is_voter = true) →
        (finish_setup_after_join ps my_id cfg).2 = cfg) := by
  have hfin : finish_setup_after_join ps my_id cfg = (ps, become_voter my_id cfg) := by
    unfold finish_setup_after_join
    simp [hb]
  constructor
  · intro hmem
    rw [hfin]
    unfold is_member at hmem ⊢
    rw [List.any_eq_true] at hmem ⊢
    rcases hmem with ⟨mem, hmeml, hcond⟩
    have hidm : mem.id = my_id := beq_iff_eq.mp ((Bool.and_eq_true _ _).mp hcond).1
    refine ⟨{ mem with is_voter := true }, ?_, ?_⟩
    · unfold become_voter
      refine List.mem_map.mpr ⟨mem, hmeml, ?_⟩
      rw [if_pos hidm]
    · simp [hidm]
  · intro hvoters
    rw [hfin]
    exact become_voter_noop my_id cfg hvoters

theorem c7_witness :
    is_member (finish_setup_after_join { restartProc with just_bootstrapped := true }
        2 [⟨2, false⟩]).2 2 true = true :=
  (c7_voter_promotion { restartProc with just_bootstrapped := true } 2 [⟨2, false⟩]
    rfl).1 (by decide)

/-- C10: under the documented precondition that group 0 has not been
initialized since the last process start and the local Raft feature is
enabled, join_group0 leaves joined_group0() true and the group 0 ID
persisted on disk, so every subsequent restart detects that group 0 has
already been joined and reaches Member again without discovery. -/
theorem c10_join_persists (ps : ProcState) (disk : Disk) (env : BootEnv) (as_voter : Bool)
    (h1 : joined_group0 ps = false) (h2 : env.raft_enabled = true) :
    joined_group0 (join_group0 ps disk env as_voter).1 = true
    ∧ (join_group0 ps disk env as_voter).2.group0_id = some env.gid
    ∧ ∀ env3 : BootEnv, env3.raft_enabled = true →
        ∃ ps'', setup_group0 restartProc (join_group0 ps disk env as_voter).2 env3
            = .ok (ps'', (join_group0 ps disk env as_voter).2)
          ∧ ps''.lifecycle = .member env.gid
          ∧ LifecycleTag.discovering ∉ ps''.visited := by
  refine ⟨rfl, rfl, ?_⟩
  intro env3 he3
  refine ⟨_, setup_restart_member _ env3 env.gid he3 rfl, rfl, ?_⟩
  simp [start_server_for_group0, enter, restartProc, tag]

theorem c10_witness :
    joined_group0 (join_group0 restartProc ⟨none, []⟩
        ⟨true, false, ⟨1, 10⟩, [], 7, none⟩ false).1 = true :=
  (c10_join_persists restartProc ⟨none, []⟩ ⟨true, false, ⟨1, 10⟩, [], 7, none⟩
    false rfl rfl).1

end Group0
